import Mathlib

/-!
Verification of the Spartan PDF report generator (`Spartan_PDF V1.py`).

The file shallowly embeds the parts of the program that the specification's
testable properties talk about:

* the number formatting used by the f-strings (`:.2f`, `:,.2f`, `:,.0f`,
  `:.1f`), over exact fractions;
* the data mappers (`format_project_overview`, the inline design-metrics and
  financial-row computations of `generate_design_report`);
* the orchestrator `AuroraSolarReport.generate_design_report` as a pure
  function from an API-behaviour record to a run result (success flag, the
  ordered list of layout blocks appended to the `PDFGenerator`, and the trace
  of collaborator calls, including image-download attempts and retry sleeps);
* the `FooterCanvas` page-buffering and footer-stamping logic.

Numbers are modelled as exact unnormalised fractions (`Frac`), the
idealisation of the Python floats; every claim below evaluates the model only
at inputs where the float computation is exact, so the idealisation is
faithful there.
-/

namespace Spartan

/-- An unnormalised fraction `n / d`.  JSON numbers, and every intermediate
arithmetic value of the program, are modelled as such fractions; all code
paths keep `d` positive. -/
structure Frac where
  n : Int
  d : Nat
  deriving DecidableEq

/-- Embed an integer as a fraction. -/
def Frac.ofInt (k : Int) : Frac := ⟨k, 1⟩

/-- `a / k` for a positive literal `k` (used for `system_size_stc / 1000`). -/
def Frac.divNat (a : Frac) (k : Nat) : Frac := ⟨a.n, a.d * k⟩

/-- `a * k` for a natural literal `k` (used for `system_size * 1000`). -/
def Frac.mulNat (a : Frac) (k : Nat) : Frac := ⟨a.n * k, a.d⟩

/-- `a * (p / q)` for literals, used for `price * 0.30` and `price * 0.70`
(the decimal literals are modelled by the exact fractions 3/10 and 7/10). -/
def Frac.mulLit (a : Frac) (p q : Nat) : Frac := ⟨a.n * p, a.d * q⟩

/-- `a / b`; meaningful when `b` is nonzero.  The sign is moved to the
numerator so that the denominator stays a natural number. -/
def Frac.div (a b : Frac) : Frac :=
  if 0 ≤ b.n then ⟨a.n * b.d, a.d * b.n.natAbs⟩ else ⟨-(a.n * b.d), a.d * b.n.natAbs⟩

/-- Python truthiness / strict positivity test `x > 0` of a fraction with a
positive denominator. -/
def Frac.pos (a : Frac) : Bool := 0 < a.n

/-- Python truthiness `bool(x)` of a numeric value: false exactly at zero
(assuming a positive denominator). -/
def Frac.isNonzero (a : Frac) : Bool := a.n ≠ 0

/-- Round `n / d` (with `d > 0`) to the nearest integer, ties to even —
the rounding used by Python's fixed-point float formatting. -/
def roundHalfEvenInt (n : Int) (d : Nat) : Int :=
  let f := Int.fdiv n d
  let r := n - f * d
  if 2 * r < (d : Int) then f
  else if (d : Int) < 2 * r then f + 1
  else if f % 2 = 0 then f else f + 1

/-- Round a fraction to `k` decimal digits, returning the scaled integer
(value × 10^k), ties to even. -/
def Frac.scaled (a : Frac) (k : Nat) : Int := roundHalfEvenInt (a.n * (10 ^ k : Nat)) a.d

/-- Left-pad a digit string with zeros to length `k`. -/
def padZeros (k : Nat) (s : String) : String :=
  if s.length < k then String.mk (List.replicate (k - s.length) '0') ++ s else s

/-- Worker for `commaChunks`: walks the least-significant-first digit list,
inserting a comma before every position that is a positive multiple of 3. -/
def commaGo : List Char → Nat → List Char
  | [], _ => []
  | c :: rest, k =>
    if k % 3 = 0 ∧ k ≠ 0 then ',' :: c :: commaGo rest (k + 1)
    else c :: commaGo rest (k + 1)

/-- Insert thousands separators into a digit list (most-significant first),
grouping by three from the right. -/
def commaChunks (cs : List Char) : List Char :=
  (commaGo cs.reverse 0).reverse

/-- Python `format(x, ".kf")`: fixed-point with `k` decimals, no grouping. -/
def fmtFixed (k : Nat) (a : Frac) : String :=
  let s := a.scaled k
  let sign := if s < 0 then "-" else ""
  let m := s.natAbs
  let ip := m / 10 ^ k
  let fp := m % 10 ^ k
  sign ++ Nat.repr ip ++ (if k = 0 then "" else "." ++ padZeros k (Nat.repr fp))

/-- Python `format(x, ",.kf")`: fixed-point with `k` decimals and thousands
separators in the integer part. -/
def fmtComma (k : Nat) (a : Frac) : String :=
  let s := a.scaled k
  let sign := if s < 0 then "-" else ""
  let m := s.natAbs
  let ip := m / 10 ^ k
  let fp := m % 10 ^ k
  sign ++ String.mk (commaChunks (Nat.repr ip).data)
    ++ (if k = 0 then "" else "." ++ padZeros k (Nat.repr fp))

/-- Python `str.strip()`: remove whitespace from both ends. -/
def pyStrip (s : String) : String :=
  String.mk (((s.data.dropWhile Char.isWhitespace).reverse.dropWhile Char.isWhitespace).reverse)

/-- Python `str.title()` (over ASCII): the first letter of every maximal
alphabetic run is upper-cased, the rest lower-cased, other characters are
kept. -/
def titleGo : List Char → Bool → List Char
  | [], _ => []
  | c :: rest, prevAlpha =>
    if c.isAlpha then
      (if prevAlpha then c.toLower else c.toUpper) :: titleGo rest true
    else c :: titleGo rest false

/-- Python `str.title()` over ASCII strings. -/
def titleCase (s : String) : String := String.mk (titleGo s.data false)

/-- `s.replace('Z', '+00:00')`, as applied to the `created_at` string before
parsing. -/
def replaceZ (s : String) : String :=
  String.mk (s.data.foldr
    (fun c acc =>
      if c = 'Z' then '+' :: '0' :: '0' :: ':' :: '0' :: '0' :: acc else c :: acc)
    [])

/-- `strftime('%B')`: full English month name, months numbered from 1. -/
def monthName : Nat → Option String
  | 1 => some "January"
  | 2 => some "February"
  | 3 => some "March"
  | 4 => some "April"
  | 5 => some "May"
  | 6 => some "June"
  | 7 => some "July"
  | 8 => some "August"
  | 9 => some "September"
  | 10 => some "October"
  | 11 => some "November"
  | 12 => some "December"
  | _ => none

/-- `strftime('%d')`: zero-padded day of month. -/
def pad2 (k : Nat) : String := if k < 10 then "0" ++ Nat.repr k else Nat.repr k

/-- Digit value of an ASCII digit character. -/
def digitVal (c : Char) : Option Nat :=
  if c.isDigit then some (c.toNat - '0'.toNat) else none

/-- Models `datetime.fromisoformat(s).strftime('%B %d, %Y')` on the
`created_at` field: the `YYYY-MM-DD` prefix is parsed and validated
(month 1–12, day 1–31) and any remainder must start with the `'T'` or `' '`
separator.  The per-month day caps and the validation of the time-of-day part
are elided — no claim observes the parsed value, only whether a value is
produced at all on well-formed dates and that the fallbacks of the source are
taken otherwise. -/
def isoToLongDate (s : String) : Option String :=
  match (replaceZ s).data with
  | y1 :: y2 :: y3 :: y4 :: '-' :: m1 :: m2 :: '-' :: d1 :: d2 :: rest =>
    match digitVal y1, digitVal y2, digitVal y3, digitVal y4,
        digitVal m1, digitVal m2, digitVal d1, digitVal d2 with
    | some a, some b, some c, some d, some me, some mf, some de, some df =>
      let year := ((a * 10 + b) * 10 + c) * 10 + d
      let mo := me * 10 + mf
      let day := de * 10 + df
      if 1 ≤ day ∧ day ≤ 31 ∧ (rest = [] ∨ rest.head? = some 'T' ∨ rest.head? = some ' ')
      then (monthName mo).map (fun nm => nm ++ " " ++ pad2 day ++ ", " ++ Nat.repr year)
      else none
    | _, _, _, _, _, _, _, _ => none
  | _ => none

/-! ## Data model

The JSON payloads are modelled as records whose fields are the dictionary
keys the program reads; `none` models an absent key.  The program only ever
distinguishes a dictionary's truthiness and the presence of the single key it
reads, so each payload dictionary is a `Dict α`: the value under the key the
code reads, plus a flag recording whether any other key is present (which is
what Python's truthiness of the dictionary additionally depends on). -/

/-- A JSON object of which the program reads one key: `val` is the value
under that key (`none` when absent), `extras` records whether the object has
any other key. -/
structure Dict (α : Type) where
  val : Option α := none
  extras : Bool := false
  deriving DecidableEq

/-- Python truthiness of the object: non-empty. -/
def Dict.truthy {α : Type} (d : Dict α) : Bool := d.val.isSome || d.extras

/-- `location.property_address_components` of a project payload. -/
structure AddressComponents where
  street_address : Option String := none
  city : Option String := none
  region : Option String := none
  postal_code : Option String := none
  deriving DecidableEq

/-- `project.location`. -/
structure Location where
  property_address_components : Option AddressComponents := none
  deriving DecidableEq

/-- The object under the `"project"` key of a `get_project` payload. -/
structure Project where
  name : Option String := none
  customer_first_name : Option String := none
  customer_last_name : Option String := none
  location : Option Location := none
  created_at : Option String := none
  status : Option String := none
  project_type : Option String := none
  deriving DecidableEq

/-- `AuroraSolarReport.format_project_overview` (lines 329–356): `None` when
the payload is falsy or lacks the `"project"` key, otherwise the fixed list
of ten labelled rows. -/
def format_project_overview (project_data : Option (Dict Project)) :
    Option (List (List String)) :=
  match project_data with
  | none => none
  | some pd =>
    if ¬ pd.truthy then none else
    match pd.val with
    | none => none
    | some project =>
      let address :=
        ((project.location.getD {}).property_address_components.getD {})
      let formatted_date :=
        match project.created_at with
        | none => "N/A"
        | some s => (isoToLongDate s).getD s
      let customer_name :=
        pyStrip ((project.customer_first_name.getD "") ++ " "
          ++ (project.customer_last_name.getD ""))
      some
        [["Project Details", "Information"],
         ["Project Name", project.name.getD "N/A"],
         ["Customer Name", if customer_name = "" then "N/A" else customer_name],
         ["Street Address", address.street_address.getD "N/A"],
         ["City", address.city.getD "N/A"],
         ["State", address.region.getD "N/A"],
         ["ZIP Code", address.postal_code.getD "N/A"],
         ["Created Date", formatted_date],
         ["Status", titleCase (project.status.getD "N/A")],
         ["Property Type", titleCase (project.project_type.getD "N/A")]]

/-- An entry of `design.bill_of_materials`.  `quantity` is modelled as an
integer (`str()` of it is then its decimal representation). -/
structure BomEntry where
  component_type : Option String := none
  name : Option String := none
  quantity : Option Int := none
  deriving DecidableEq

/-- `design.energy_production`. -/
structure EnergyProduction where
  annual : Option Frac := none
  deriving DecidableEq

/-- `shading.solar_access` of an array entry. -/
structure SolarAccess where
  annual : Option Frac := none
  deriving DecidableEq

/-- `arrays[i].shading`. -/
structure Shading where
  solar_access : Option SolarAccess := none
  deriving DecidableEq

/-- An entry of `design.arrays`. -/
structure ArrayEntry where
  shading : Option Shading := none
  deriving DecidableEq

/-- The object under the `"design"` key of a `get_design_summary` payload. -/
structure DesignInfo where
  bill_of_materials : Option (List BomEntry) := none
  system_size_stc : Option Frac := none
  energy_production : Option EnergyProduction := none
  arrays : Option (List ArrayEntry) := none
  deriving DecidableEq

/-- The dict comprehension
`{item['component_type']: item for item in design_info.get('bill_of_materials', [])}`
(line 406).  The bracket lookup `item['component_type']` raises `KeyError`
when the entry lacks the key; this is the only way the metrics computation
can fail on missing fields besides `arrays[0]`. -/
def build_materials : List BomEntry → Except String (List (String × BomEntry))
  | [] => Except.ok []
  | e :: rest =>
    match e.component_type with
    | none => Except.error "KeyError: component_type"
    | some k =>
      match build_materials rest with
      | Except.error m => Except.error m
      | Except.ok tail => Except.ok ((k, e) :: tail)

/-- `materials.get(key, {})` over the association list built by
`build_materials`; later entries overwrite earlier ones in a Python dict, so
the last binding wins. -/
def dictGet (l : List (String × BomEntry)) (key : String) : BomEntry :=
  (((l.filter (fun p => p.1 == key)).getLast?).map (fun p => p.2)).getD {}

/-- `system_size = design_info.get('system_size_stc', 0) / 1000` (line 409),
as a fraction of kilowatts. -/
def system_size_of (design_info : DesignInfo) : Frac :=
  (design_info.system_size_stc.getD (Frac.ofInt 0)).divNat 1000

/-- Lines 405–422 of `generate_design_report`: the design-metrics rows.
`Except.error` models the uncaught `KeyError` from `build_materials` and the
`IndexError` from `arrays[0]` on a present-but-empty list — both are caught
only at the orchestrator boundary, failing the whole run. -/
def design_data_rows (design_summary : Dict DesignInfo) :
    Except String (List (List String)) :=
  let design_info := design_summary.val.getD {}
  match build_materials (design_info.bill_of_materials.getD []) with
  | Except.error m => Except.error m
  | Except.ok materials =>
    let modules := dictGet materials "modules"
    let inverters := dictGet materials "microinverters"
    let system_size := system_size_of design_info
    let annual_production :=
      (design_info.energy_production.getD {}).annual.getD (Frac.ofInt 0)
    let arrays := design_info.arrays.getD [{}]
    match arrays.head? with
    | none => Except.error "IndexError: arrays"
    | some a0 =>
      let solar_access :=
        ((a0.shading.getD {}).solar_access.getD {}).annual.getD (Frac.ofInt 0)
      Except.ok
        [["Metric", "Value"],
         ["System Size", fmtFixed 2 system_size ++ " kW"],
         ["Annual Production", fmtComma 0 annual_production ++ " kWh"],
         ["Number of Panels",
           match modules.quantity with
           | some q => Int.repr q
           | none => "N/A"],
         ["Panel Model", modules.name.getD "N/A"],
         ["Inverter Model", inverters.name.getD "N/A"],
         ["Solar Access",
           if solar_access.isNonzero then fmtFixed 1 solar_access ++ "%" else "N/A"]]

/-- Lines 429–435 of `generate_design_report`: the financial rows, from the
pricing value `price = design_pricing.get('system_price', 0)` and the system
size in kilowatts.  The division `price / (system_size * 1000)` is performed
only under the guard `system_size > 0`. -/
def financial_data (price : Frac) (system_size : Frac) : List (List String) :=
  [["Item", "Amount"],
   ["System Price", "$" ++ fmtComma 2 price],
   ["Price per Watt",
     if system_size.pos then "$" ++ fmtComma 2 (price.div (system_size.mulNat 1000)) ++ "/W"
     else "N/A"],
   ["Federal Tax Credit", "$" ++ fmtComma 2 (price.mulLit 30 100)],
   ["Net System Cost", "$" ++ fmtComma 2 (price.mulLit 70 100)]]

/-! ## Orchestrator model

`generate_design_report` is embedded as a pure function of an `ApiEnv`
(the observable behaviour of the collaborators) returning the success flag,
the ordered list of layout blocks appended to the `PDFGenerator`, and the
trace of collaborator calls (fetches, image download attempts, retry
sleeps). -/

/-- A layout block appended to `PDFGenerator.elements`.  Text styling markup
(the `<b>` wrapper of `add_title`) and image payloads are elided; each
`add_*` call appends its block plus a `spacer` exactly as in the source. -/
inductive Block where
  | logo : Block
  | spacer : Block
  | title : String → Block
  | header : String → Block
  | paragraph : String → Block
  | table : List (List String) → Block
  | image : Block
  deriving DecidableEq

/-- Downloaded image bytes, abstracted to an identifier plus whether
`reportlab` can decode them (which is what `PDFGenerator.add_image` tests). -/
structure Img where
  data : Nat := 0
  ok : Bool := true
  deriving DecidableEq

/-- An entry of the `"assets"` list of a `get_design_assets` payload. -/
structure Asset where
  type : Option String := none
  asset_type : Option String := none
  url : Option String := none
  deriving DecidableEq

/-- The filter of lines 446–449: `asset.get('type') in ['layout_image'] or
asset.get('asset_type') == 'CAD Screenshot'`. -/
def Asset.eligible (a : Asset) : Bool :=
  a.type == some "layout_image" || a.asset_type == some "CAD Screenshot"

/-- Observable behaviour of the collaborators during one run:
`download_image url k` is the result of the `k`-th download attempt
(0-indexed) for `url`; `add_logo_ok` is whether the logo file decodes;
`build_ok` is whether `doc.build` succeeds. -/
structure ApiEnv where
  validate_credentials : Bool := true
  design_summary : Dict DesignInfo := {}
  design_pricing : Dict Frac := {}
  design_assets : Dict (List Asset) := {}
  project : Dict Project := {}
  download_image : String → Nat → Option Img := fun _ _ => none
  logo_supplied : Bool := false
  logo_exists : Bool := false
  add_logo_ok : Bool := true
  build_ok : Bool := true

/-- Result of a run: the boolean returned by `generate_design_report`, the
block sequence accumulated in the builder, and the collaborator-call trace. -/
structure RunResult where
  ok : Bool
  blocks : List Block
  calls : List String
  deriving DecidableEq

/-- The per-asset retry loop of lines 464–486: up to `fuel` further attempts
starting at index `attempt`.  Each iteration calls `download_image`; a
successful download that also embeds stops the loop; otherwise the loop
sleeps 2 seconds (`"sleep2"` in the trace) whenever `attempt < max_retries - 1`,
i.e. whenever a further attempt remains, and retries.  Returns the appended
blocks, the success flag and the call trace. -/
def retry_one (env : ApiEnv) (image_url : String) :
    Nat → Nat → List Block × Bool × List String
  | _, 0 => ([], false, [])
  | attempt, fuel + 1 =>
    match env.download_image image_url attempt with
    | some img =>
      if img.ok then ([Block.image, Block.spacer], true, ["download_image"])
      else
        let r := retry_one env image_url (attempt + 1) fuel
        (r.1, r.2.1, "download_image" :: (if 1 ≤ fuel then ["sleep2"] else []) ++ r.2.2)
    | none =>
      let r := retry_one env image_url (attempt + 1) fuel
      (r.1, r.2.1, "download_image" :: (if 1 ≤ fuel then ["sleep2"] else []) ++ r.2.2)

/-- Lines 459–486 for one asset: skip it when its `url` is absent or falsy,
otherwise run the 3-attempt retry loop. -/
def process_asset (env : ApiEnv) (a : Asset) : List Block × Bool × List String :=
  match a.url with
  | none => ([], false, [])
  | some u => if u = "" then ([], false, []) else retry_one env u 0 3

/-- The loop over all eligible assets; `images_added` is the disjunction of
the per-asset successes. -/
def process_assets (env : ApiEnv) : List Asset → List Block × Bool × List String
  | [] => ([], false, [])
  | a :: rest =>
    let r := process_asset env a
    let rr := process_assets env rest
    (r.1 ++ rr.1, r.2.1 || rr.2.1, r.2.2 ++ rr.2.2)

/-- The paragraph text of lines 453 and 490. -/
def unavailableText : String := "System design images are currently unavailable."

/-- Lines 439–490: the visualization section.  Entered only when
`design_assets.get('assets')` is truthy (key present with a non-empty list);
then the header is appended, the assets are filtered, and either the
unavailable paragraph (no eligible assets), or the per-asset retry loops
followed by the unavailable paragraph when no image was embedded at all. -/
def images_section (env : ApiEnv) : List Block × List String :=
  match env.design_assets.val with
  | none => ([], [])
  | some assets =>
    if assets.isEmpty then ([], [])
    else
      let hdr := [Block.header "System Design Visualization", Block.spacer]
      let layout_images := assets.filter Asset.eligible
      if layout_images.isEmpty then
        (hdr ++ [Block.paragraph unavailableText, Block.spacer], [])
      else
        let r := process_assets env layout_images
        (hdr ++ r.1
           ++ (if r.2.1 then [] else [Block.paragraph unavailableText, Block.spacer]),
         r.2.2)

/-- Lines 389–391: the logo is added only when a logo path was supplied and
the file exists; a decoding failure inside `add_logo` appends nothing. -/
def logo_blocks (env : ApiEnv) : List Block :=
  if env.logo_supplied && env.logo_exists then
    (if env.add_logo_ok then [Block.logo, Block.spacer] else [])
  else []

/-- Lines 397–401: when the project payload is truthy the header is appended
first, and the overview table only if `format_project_overview` produced
rows. -/
def project_section (project_data : Option (Dict Project)) : List Block :=
  match project_data with
  | none => []
  | some pd =>
    if pd.truthy then
      [Block.header "Project Overview", Block.spacer]
        ++ (match format_project_overview (some pd) with
            | some rows => [Block.table rows, Block.spacer]
            | none => [])
    else []

/-- Lines 426–436: the financial section, present exactly when the pricing
dictionary is truthy; `price` defaults to 0 when the `"system_price"` key is
absent. -/
def financial_section (env : ApiEnv) : List Block :=
  if env.design_pricing.truthy then
    [Block.header "Financial Overview", Block.spacer,
     Block.table
       (financial_data (env.design_pricing.val.getD (Frac.ofInt 0))
         (system_size_of (env.design_summary.val.getD {}))),
     Block.spacer]
  else []

/-- The fetch calls made once the credential check and the mandatory design
summary succeeded: pricing, assets, and the project only when an identifier
was supplied (lines 367–379). -/
def base_calls (project_id : Bool) : List String :=
  ["validate_credentials", "get_design_summary", "get_design_pricing",
   "get_design_assets"] ++ (if project_id then ["get_project"] else [])

/-- The blocks appended before the design-metrics table: logo, title,
project section, and the "System Design Details" header (lines 389–404). -/
def pre_blocks (env : ApiEnv) (project_id : Bool) : List Block :=
  logo_blocks env ++ [Block.title "Spartan EagleEye Report", Block.spacer]
    ++ project_section (if project_id then some env.project else none)
    ++ [Block.header "System Design Details", Block.spacer]

/-- `AuroraSolarReport.generate_design_report` (lines 358–502) as a pure
function.  `project_id` is whether a project identifier was supplied.  An
`Except.error` from the design-metrics computation models the `KeyError` /
`IndexError` caught at the outer `try`, which fails the run. -/
def run (env : ApiEnv) (project_id : Bool) : RunResult :=
  if ¬ env.validate_credentials then ⟨false, [], ["validate_credentials"]⟩ else
  if ¬ env.design_summary.truthy then
    ⟨false, [], ["validate_credentials", "get_design_summary"]⟩ else
  match design_data_rows env.design_summary with
  | Except.error _ => ⟨false, pre_blocks env project_id, base_calls project_id⟩
  | Except.ok rows =>
    ⟨env.build_ok,
     pre_blocks env project_id ++ [Block.table rows, Block.spacer]
       ++ financial_section env ++ (images_section env).1,
     base_calls project_id ++ (images_section env).2⟩

/-! ## FooterCanvas model

`FooterCanvas` (lines 162–187) buffers every completed page and stamps the
footers only in `save`, once the total page count is known.  A page is
modelled as the list of strings drawn on it; coordinates and fonts are
elided. -/

/-- The canvas: buffered completed pages plus the in-progress page. -/
structure Canv where
  pages : List (List String) := []
  current : List String := []

/-- `FooterCanvas.showPage`: buffer the current page state and start a fresh
page. -/
def Canv.showPage (c : Canv) : Canv :=
  { pages := c.pages ++ [c.current], current := [] }

/-- `FooterCanvas.draw_footer`: the brand string concatenated with the
generation timestamp, and the page-info string `"Page N of M"`. -/
def draw_footer (now : String) (page_num page_count : Nat) : List String :=
  [" SPARTAN HOME SERVICES " ++ now,
   "Page " ++ Nat.repr page_num ++ " of " ++ Nat.repr page_count]

/-- The `enumerate(self.pages, 1)` loop of `save`: stamp every buffered page
with its footer, numbering from `k`. -/
def stampPages (now : String) (page_count : Nat) :
    List (List String) → Nat → List (List String)
  | [], _ => []
  | p :: rest, k => (p ++ draw_footer now k page_count) :: stampPages now page_count rest (k + 1)

/-- `FooterCanvas.save`: compute the final page count from the buffer, then
emit every buffered page with its footer stamped, in order and 1-indexed. -/
def Canv.save (c : Canv) (now : String) : List (List String) :=
  stampPages now c.pages.length c.pages 1

/-- `sub` occurs contiguously inside `s` (its character list is an infix). -/
def substringOf (sub s : String) : Prop := List.IsInfix sub.data s.data

/-- Some string drawn on the page contains `sub`. -/
def pageContains (page : List String) (sub : String) : Prop :=
  ∃ s, s ∈ page ∧ substringOf sub s

/-! ## Concrete scenario environments used by the claims -/

/-- An environment whose credential check fails. -/
def envNoCreds : ApiEnv :=
  ⟨false, {}, {}, {}, {}, fun _ _ => none, false, false, true, true⟩

/-- A concrete two-page canvas for the C7 witness. -/
def canvTwoPages : Canv := ⟨[["body one"], ["body two"]], []⟩

/-- The only eligible layout asset of the retry scenarios. -/
def assetU : Asset := ⟨some "layout_image", none, some "u"⟩

/-- Scenario: the fetch fails twice, then succeeds on the third attempt. -/
def envRetryA : ApiEnv :=
  ⟨true, ⟨some {}, false⟩, {}, ⟨some [assetU], false⟩, {},
   fun _ k => if k = 2 then some ⟨0, true⟩ else none, false, false, true, true⟩

/-- Scenario: the fetch fails on all attempts. -/
def envRetryB : ApiEnv :=
  ⟨true, ⟨some {}, false⟩, {}, ⟨some [assetU], false⟩, {},
   fun _ _ => none, false, false, true, true⟩

/-- An environment with a truthy design summary and no `"assets"` key. -/
def envAssetsNone : ApiEnv :=
  ⟨true, ⟨some {}, false⟩, {}, {}, {}, fun _ _ => none, false, false, true, true⟩

/-- A project payload that is non-empty yet lacks the `"project"` key. -/
def envProjNoKey : ApiEnv :=
  ⟨true, ⟨some {}, false⟩, {}, {}, ⟨none, true⟩, fun _ _ => none, false, false, true, true⟩

/-- A design summary with `system_size_stc = 4000` watts (4 kW) and nothing
else. -/
def summary4kW : Dict DesignInfo := ⟨some ⟨none, some ⟨4000, 1⟩, none, none⟩, false⟩

/-- An environment whose pricing dictionary is non-empty but carries
`system_price = 0`. -/
def envPriceZero : ApiEnv :=
  ⟨true, summary4kW, ⟨some ⟨0, 1⟩, false⟩, {}, {}, fun _ _ => none,
   false, false, true, true⟩

/-- A design summary whose bill of materials has an entry lacking
`component_type`. -/
def badSummary : Dict DesignInfo :=
  ⟨some ⟨some [⟨none, none, none⟩], none, none, none⟩, false⟩

/-- An environment around `badSummary`. -/
def envBadBom : ApiEnv :=
  ⟨true, badSummary, {}, {}, {}, fun _ _ => none, false, false, true, true⟩

/-! ## Claims -/

/-- C8: with `price = 1000` and `systemSizeKw = 4` the financial rows carry
price-per-watt `"$0.25/W"`, federal tax credit `"$300.00"` and net cost
`"$700.00"`; with `systemSizeKw = 0` the price-per-watt row is `"N/A"`. -/
theorem claim8_financial_values :
    financial_data (Frac.ofInt 1000) (Frac.ofInt 4) =
      [["Item", "Amount"],
       ["System Price", "$1,000.00"],
       ["Price per Watt", "$0.25/W"],
       ["Federal Tax Credit", "$300.00"],
       ["Net System Cost", "$700.00"]]
    ∧ (financial_data (Frac.ofInt 1000) (Frac.ofInt 0))[2]? =
        some ["Price per Watt", "N/A"] := by
  decide

/-- C5: if the credential check fails, the run result is failure and the only
collaborator call made is the credential check itself — none of
`get_project`, `get_design_summary`, `get_design_pricing`,
`get_design_assets` is invoked. -/
theorem claim5_credential_short_circuit (env : ApiEnv) (pid : Bool)
    (h : env.validate_credentials = false) :
    (run env pid).ok = false ∧ (run env pid).calls = ["validate_credentials"] := by
  simp [run, h]

/-- Witness for C5 at a concrete environment. -/
theorem claim5_credential_short_circuit_witness :
    (run envNoCreds false).ok = false ∧
    (run envNoCreds false).calls = ["validate_credentials"] :=
  claim5_credential_short_circuit envNoCreds false rfl

/-- C9: for every payload containing the `"project"` key,
`format_project_overview` returns exactly ten ordered rows whose labels are
fixed and in fixed order: the header row, then Project Name, Customer Name,
Street Address, City, State, ZIP Code, Created Date, Status, Property
Type. -/
theorem claim9_overview_rows (pd : Dict Project) (h : pd.val.isSome = true) :
    (format_project_overview (some pd)).map List.length = some 10 ∧
    (format_project_overview (some pd)).map (List.map (fun r => r.head?)) =
      some [some "Project Details", some "Project Name", some "Customer Name",
        some "Street Address", some "City", some "State", some "ZIP Code",
        some "Created Date", some "Status", some "Property Type"] := by
  rcases pd with ⟨v, e⟩
  cases v with
  | none => simp at h
  | some p => exact ⟨rfl, rfl⟩

/-- Witness for C9 at the payload whose project object is empty. -/
theorem claim9_overview_rows_witness :
    (format_project_overview (some ⟨some {}, false⟩)).map List.length = some 10 ∧
    (format_project_overview (some ⟨some {}, false⟩)).map (List.map (fun r => r.head?)) =
      some [some "Project Details", some "Project Name", some "Customer Name",
        some "Street Address", some "City", some "State", some "ZIP Code",
        some "Created Date", some "Status", some "Property Type"] :=
  claim9_overview_rows ⟨some {}, false⟩ rfl

/-- Stamping preserves the number of pages. -/
theorem stampPages_length (now : String) (n : Nat) :
    ∀ (l : List (List String)) (k : Nat), (stampPages now n l k).length = l.length := by
  intro l
  induction l with
  | nil => intro k; rfl
  | cons p rest ih => intro k; simp [stampPages, ih]

/-- The `j`-th stamped page is the `j`-th buffered page followed by the
footer numbered `k + j`. -/
theorem stampPages_get (now : String) (n : Nat) :
    ∀ (l : List (List String)) (k j : Nat),
      (stampPages now n l k)[j]? =
        (l[j]?).map (fun p => p ++ draw_footer now (k + j) n) := by
  intro l
  induction l with
  | nil => intro k j; simp [stampPages]
  | cons p rest ih =>
    intro k j
    cases j with
    | zero => simp [stampPages]
    | succ j =>
      have hkj : k + (j + 1) = (k + 1) + j := by omega
      simp [stampPages, ih (k + 1) j, hkj]

/-- C7: for a document laid out to `N` buffered pages, the `k`-th emitted
page (0-indexed here, so 1-indexed page number `k + 1`) contains the literal
substring `"Page (k+1) of N"`, and the emitted page count equals the true
buffered page count, which is fixed before any footer is stamped. -/
theorem claim7_footer (c : Canv) (now : String) (k : Nat) (page : List String)
    (hk : (c.save now)[k]? = some page) :
    (c.save now).length = c.pages.length ∧
    pageContains page
      ("Page " ++ Nat.repr (k + 1) ++ " of " ++ Nat.repr c.pages.length) := by
  constructor
  · exact stampPages_length now c.pages.length c.pages 1
  · rw [Canv.save, stampPages_get now c.pages.length c.pages 1 k] at hk
    cases hp : c.pages[k]? with
    | none => rw [hp] at hk; simp at hk
    | some p0 =>
      rw [hp] at hk
      simp at hk
      refine ⟨"Page " ++ Nat.repr (1 + k) ++ " of " ++ Nat.repr c.pages.length, ?_, ?_⟩
      · rw [← hk]
        exact List.mem_append_right p0 (by simp [draw_footer])
      · rw [Nat.add_comm 1 k]
        exact List.infix_refl _

/-- Witness for C7: the first page of a concrete two-page document carries
"Page 1 of 2". -/
theorem claim7_footer_witness :
    (canvTwoPages.save "TS").length = canvTwoPages.pages.length ∧
    pageContains ["body one", " SPARTAN HOME SERVICES TS", "Page 1 of 2"]
      ("Page " ++ Nat.repr (0 + 1) ++ " of " ++ Nat.repr canvTwoPages.pages.length) :=
  claim7_footer canvTwoPages "TS" 0
    ["body one", " SPARTAN HOME SERVICES TS", "Page 1 of 2"] (by decide)

/-- The per-asset retry loop makes at most `fuel` download attempts. -/
theorem retry_one_count_le (env : ApiEnv) (u : String) :
    ∀ (fuel attempt : Nat),
      ((retry_one env u attempt fuel).2.2.count "download_image") ≤ fuel := by
  intro fuel
  induction fuel with
  | zero => intro attempt; simp [retry_one]
  | succ f ih =>
    intro attempt
    have hs : (("sleep2" : String) == "download_image") = false := by decide
    simp only [retry_one]
    split
    · split
      · simp
      · have := ih (attempt + 1)
        by_cases hf : 1 ≤ f <;>
          simp [hf, List.count_cons, List.count_append, hs] <;> omega
    · have := ih (attempt + 1)
      by_cases hf : 1 ≤ f <;>
        simp [hf, List.count_cons, List.count_append, hs] <;> omega

/-- C1: per-asset image retry policy.  The loop makes at most 3 download
attempts; a successful download+embed on attempt `n` (after `n` failed
downloads) stops the loop after exactly `n + 1` attempts with exactly one
image block appended; on the fails-twice-then-succeeds scenario the full run
appends exactly one image block and no "unavailable" paragraph, with 3
download attempts and the 2-second pause taken between consecutive attempts;
on the all-attempts-fail scenario it appends zero image blocks and exactly
one "unavailable" paragraph. -/
theorem claim1_image_retry :
    (∀ (env : ApiEnv) (u : String) (attempt : Nat),
        ((retry_one env u attempt 3).2.2.count "download_image") ≤ 3)
    ∧ (∀ (env : ApiEnv) (u : String) (n : Nat) (img : Img), n < 3 →
        (∀ m, m < n → env.download_image u m = none) →
        env.download_image u n = some img → img.ok = true →
        (retry_one env u 0 3).1 = [Block.image, Block.spacer] ∧
        (retry_one env u 0 3).2.1 = true ∧
        (retry_one env u 0 3).2.2.count "download_image" = n + 1)
    ∧ ((run envRetryA false).blocks.count Block.image = 1 ∧
       (run envRetryA false).blocks.count (Block.paragraph unavailableText) = 0 ∧
       (run envRetryA false).calls.count "download_image" = 3 ∧
       (run envRetryA false).calls.count "sleep2" = 2)
    ∧ ((run envRetryB false).blocks.count Block.image = 0 ∧
       (run envRetryB false).blocks.count (Block.paragraph unavailableText) = 1 ∧
       (run envRetryB false).calls.count "download_image" = 3 ∧
       (run envRetryB false).calls.count "sleep2" = 2) := by
  refine ⟨fun env u attempt => retry_one_count_le env u 3 attempt, ?_, by decide, by decide⟩
  intro env u n img hn hprev hdl hok
  interval_cases n
  · simp [retry_one, hdl, hok]
  · simp [retry_one, hprev 0 (by omega), hdl, hok]
  · simp [retry_one, hprev 0 (by omega), hprev 1 (by omega), hdl, hok]

/-- Witness for C1: the stop conjunct applied to the concrete
fails-twice-then-succeeds environment at attempt index 2. -/
theorem claim1_image_retry_witness :
    (retry_one envRetryA "u" 0 3).1 = [Block.image, Block.spacer] ∧
    (retry_one envRetryA "u" 0 3).2.1 = true ∧
    (retry_one envRetryA "u" 0 3).2.2.count "download_image" = 2 + 1 :=
  claim1_image_retry.2.1 envRetryA "u" 2 ⟨0, true⟩ (by omega)
    (by intro m hm; interval_cases m <;> rfl) rfl rfl

/-- The logo step only ever appends the logo and a spacer. -/
theorem mem_logo_blocks (env : ApiEnv) (b : Block) (hb : b ∈ logo_blocks env) :
    b = Block.logo ∨ b = Block.spacer := by
  unfold logo_blocks at hb
  split at hb
  · split at hb
    · simpa using hb
    · simp at hb
  · simp at hb

/-- The project section only ever appends its header, spacers and the table
produced by `format_project_overview`. -/
theorem mem_project_section (o : Option (Dict Project)) (b : Block)
    (hb : b ∈ project_section o) :
    b = Block.header "Project Overview" ∨ b = Block.spacer ∨
      ∃ rows, format_project_overview o = some rows ∧ b = Block.table rows := by
  cases o with
  | none => simp [project_section] at hb
  | some pd =>
    simp only [project_section] at hb
    split at hb
    · rcases List.mem_append.mp hb with h | h
      · simp only [List.mem_cons, List.not_mem_nil, or_false] at h; tauto
      · split at h
        · next rows heq =>
          simp only [List.mem_cons, List.not_mem_nil, or_false] at h
          rcases h with h | h
          · exact Or.inr (Or.inr ⟨rows, heq, h⟩)
          · tauto
        · simp at h
    · simp at hb

/-- The financial section is non-empty only for truthy pricing and only ever
appends its header, spacers and the financial table. -/
theorem mem_financial_section (env : ApiEnv) (b : Block)
    (hb : b ∈ financial_section env) :
    env.design_pricing.truthy = true ∧
      (b = Block.header "Financial Overview" ∨ b = Block.spacer ∨
        b = Block.table
          (financial_data (env.design_pricing.val.getD (Frac.ofInt 0))
            (system_size_of (env.design_summary.val.getD {})))) := by
  unfold financial_section at hb
  split at hb
  · next h =>
    refine ⟨by simpa using h, ?_⟩
    simp only [List.mem_cons, List.not_mem_nil, or_false] at hb
    tauto
  · simp at hb

/-- The blocks preceding the metrics table. -/
theorem mem_pre_blocks (env : ApiEnv) (pid : Bool) (b : Block)
    (hb : b ∈ pre_blocks env pid) :
    b = Block.logo ∨ b = Block.spacer ∨ b = Block.title "Spartan EagleEye Report" ∨
      b ∈ project_section (if pid then some env.project else none) ∨
      b = Block.header "System Design Details" := by
  unfold pre_blocks at hb
  simp only [List.mem_append] at hb
  rcases hb with ((h | h) | h) | h
  · rcases mem_logo_blocks env b h with h' | h' <;> tauto
  · simp only [List.mem_cons, List.not_mem_nil, or_false] at h; tauto
  · tauto
  · simp only [List.mem_cons, List.not_mem_nil, or_false] at h; tauto

/-- Every block of a run comes from one of the five fixed sections. -/
theorem run_blocks_cases (env : ApiEnv) (pid : Bool) (b : Block)
    (hb : b ∈ (run env pid).blocks) :
    b ∈ pre_blocks env pid ∨
      (∃ rows, design_data_rows env.design_summary = Except.ok rows ∧
        b = Block.table rows) ∨
      b = Block.spacer ∨ b ∈ financial_section env ∨ b ∈ (images_section env).1 := by
  unfold run at hb
  split at hb
  · simp at hb
  · split at hb
    · simp at hb
    · split at hb
      · tauto
      · next rows heq =>
        simp only [List.mem_append, List.mem_cons, List.not_mem_nil, or_false] at hb
        rcases hb with ((h | (h | h)) | h) | h <;> try tauto
        exact Or.inr (Or.inl ⟨rows, heq, h⟩)

/-- C10: when the assets payload lacks the `"assets"` key or its list is
empty, the run appends neither the "System Design Visualization" header nor
any paragraph (in particular not the "currently unavailable" one), and such
a run can still succeed. -/
theorem claim10_assets_skip (env : ApiEnv) (pid : Bool)
    (h : env.design_assets.val = none ∨ env.design_assets.val = some []) :
    Block.header "System Design Visualization" ∉ (run env pid).blocks ∧
    (∀ s, Block.paragraph s ∉ (run env pid).blocks) ∧
    (run envAssetsNone false).ok = true := by
  have himg : images_section env = ([], []) := by
    rcases h with h | h <;> simp [images_section, h]
  refine ⟨?_, ?_, by decide⟩
  · intro hb
    rcases run_blocks_cases env pid _ hb with h1 | h1 | h1 | h1 | h1
    · rcases mem_pre_blocks env pid _ h1 with h2 | h2 | h2 | h2 | h2 <;>
        first
        | simp_all
        | rcases mem_project_section _ _ h2 with h3 | h3 | ⟨rows, _, h3⟩ <;> simp_all
    · rcases h1 with ⟨rows, _, h1⟩; simp_all
    · simp_all
    · rcases mem_financial_section env _ h1 with ⟨_, h2 | h2 | h2⟩ <;> simp_all
    · rw [himg] at h1; simp at h1
  · intro s hb
    rcases run_blocks_cases env pid _ hb with h1 | h1 | h1 | h1 | h1
    · rcases mem_pre_blocks env pid _ h1 with h2 | h2 | h2 | h2 | h2 <;>
        first
        | simp_all
        | rcases mem_project_section _ _ h2 with h3 | h3 | ⟨rows, _, h3⟩ <;> simp_all
    · rcases h1 with ⟨rows, _, h1⟩; simp_all
    · simp_all
    · rcases mem_financial_section env _ h1 with ⟨_, h2 | h2 | h2⟩ <;> simp_all
    · rw [himg] at h1; simp at h1

/-- Witness for C10 at the concrete no-assets environment. -/
theorem claim10_assets_skip_witness :
    Block.header "System Design Visualization" ∉ (run envAssetsNone false).blocks ∧
    (∀ s, Block.paragraph s ∉ (run envAssetsNone false).blocks) ∧
    (run envAssetsNone false).ok = true :=
  claim10_assets_skip envAssetsNone false (Or.inl rfl)

/-- The retry loop only ever appends an image block and a spacer. -/
theorem mem_retry_one (env : ApiEnv) (u : String) :
    ∀ (fuel attempt : Nat) (b : Block), b ∈ (retry_one env u attempt fuel).1 →
      b = Block.image ∨ b = Block.spacer := by
  intro fuel
  induction fuel with
  | zero => intro attempt b hb; simp [retry_one] at hb
  | succ f ih =>
    intro attempt b hb
    simp only [retry_one] at hb
    split at hb
    · split at hb
      · simpa using hb
      · exact ih (attempt + 1) b hb
    · exact ih (attempt + 1) b hb

/-- The per-asset step only ever appends an image block and a spacer. -/
theorem mem_process_asset (env : ApiEnv) (a : Asset) (b : Block)
    (hb : b ∈ (process_asset env a).1) : b = Block.image ∨ b = Block.spacer := by
  unfold process_asset at hb
  split at hb
  · simp at hb
  · split at hb
    · simp at hb
    · exact mem_retry_one env _ 3 0 b hb

/-- The whole asset loop only ever appends image blocks and spacers. -/
theorem mem_process_assets (env : ApiEnv) :
    ∀ (l : List Asset) (b : Block), b ∈ (process_assets env l).1 →
      b = Block.image ∨ b = Block.spacer := by
  intro l
  induction l with
  | nil => intro b hb; simp [process_assets] at hb
  | cons a rest ih =>
    intro b hb
    simp only [process_assets] at hb
    rcases List.mem_append.mp hb with h | h
    · exact mem_process_asset env a b h
    · exact ih b h

/-- The visualization section only ever appends its header, spacers, the
unavailable paragraph and image blocks. -/
theorem mem_images_section (env : ApiEnv) (b : Block)
    (hb : b ∈ (images_section env).1) :
    b = Block.header "System Design Visualization" ∨ b = Block.spacer ∨
      b = Block.paragraph unavailableText ∨ b = Block.image := by
  unfold images_section at hb
  split at hb
  · simp at hb
  · split at hb
    · simp at hb
    · dsimp only at hb
      split at hb
      · simp only [List.mem_append, List.mem_cons, List.not_mem_nil, or_false] at hb
        tauto
      · simp only [List.mem_append] at hb
        rcases hb with (h | h) | h
        · simp only [List.mem_cons, List.not_mem_nil, or_false] at h; tauto
        · rcases mem_process_assets env _ b h with h' | h' <;> tauto
        · split at h
          · simp at h
          · simp only [List.mem_cons, List.not_mem_nil, or_false] at h; tauto

/-- The design-metrics table always starts with the fixed header row. -/
theorem design_rows_head (s : Dict DesignInfo) (rows : List (List String))
    (h : design_data_rows s = Except.ok rows) :
    rows.head? = some ["Metric", "Value"] := by
  unfold design_data_rows at h
  dsimp only at h
  split at h
  · cases h
  · split at h
    · cases h
    · cases h; rfl

/-- C2 as stated is false: for a non-empty project payload that lacks the
`"project"` key, the mapper does return `None`, but the orchestrator still
appends the "Project Overview" header (line 398 runs before the mapper is
consulted), so the section is not omitted entirely. -/
theorem claim2_counterexample :
    envProjNoKey.project.val = none ∧
    format_project_overview (some envProjNoKey.project) = none ∧
    Block.header "Project Overview" ∈ (run envProjNoKey true).blocks := by
  decide

/-- C2, amended: for every payload missing the `"project"` key the mapper
returns `None` and the overview *table* is never appended; the "Project
Overview" *header* is omitted only when the payload is additionally empty
(falsy) — a non-empty payload missing the key still receives the header. -/
theorem claim2_amended :
    (∀ pd : Dict Project, pd.val = none → format_project_overview (some pd) = none)
    ∧ format_project_overview none = none
    ∧ (∀ (env : ApiEnv) (pid : Bool) (rows : List (List String)),
        env.project.val = none → Block.table rows ∈ (run env pid).blocks →
        rows.head? ≠ some ["Project Details", "Information"])
    ∧ (∀ (env : ApiEnv) (pid : Bool), env.project.val = none →
        env.project.extras = false →
        Block.header "Project Overview" ∉ (run env pid).blocks) := by
  have hnone : ∀ pd : Dict Project, pd.val = none →
      format_project_overview (some pd) = none := by
    intro pd h
    rcases pd with ⟨v, e⟩
    cases h
    cases e <;> rfl
  refine ⟨hnone, rfl, ?_, ?_⟩
  · intro env pid rows hval hmem hhead
    have hfmt : format_project_overview (if pid then some env.project else none) = none := by
      cases pid
      · rfl
      · exact hnone env.project hval
    rcases run_blocks_cases env pid _ hmem with h1 | h1 | h1 | h1 | h1
    · rcases mem_pre_blocks env pid _ h1 with h2 | h2 | h2 | h2 | h2 <;>
        first
        | simp_all
        | rcases mem_project_section _ _ h2 with h3 | h3 | ⟨rows2, hfmt2, h3⟩ <;> simp_all
    · obtain ⟨rows2, hok, h2⟩ := h1
      have := design_rows_head _ _ hok
      cases h2
      simp_all
    · simp_all
    · rcases mem_financial_section env _ h1 with ⟨_, h2 | h2 | h2⟩
      · exact Block.noConfusion h2
      · exact Block.noConfusion h2
      · injection h2 with h3
        rw [h3] at hhead
        simp [financial_data] at hhead
    · rcases mem_images_section env _ h1 with h2 | h2 | h2 | h2 <;> simp_all
  · intro env pid hval hextras hmem
    have hps : project_section (if pid then some env.project else none) = [] := by
      cases pid
      · rfl
      · simp [project_section, Dict.truthy, hval, hextras]
    rcases run_blocks_cases env pid _ hmem with h1 | h1 | h1 | h1 | h1
    · rcases mem_pre_blocks env pid _ h1 with h2 | h2 | h2 | h2 | h2 <;> simp_all
    · obtain ⟨rows2, hok, h2⟩ := h1; simp_all
    · simp_all
    · rcases mem_financial_section env _ h1 with ⟨_, h2 | h2 | h2⟩ <;> simp_all
    · rcases mem_images_section env _ h1 with h2 | h2 | h2 | h2 <;> simp_all

/-- Witness for the amended C2 at concrete inputs. -/
theorem claim2_amended_witness :
    format_project_overview (some (⟨none, false⟩ : Dict Project)) = none ∧
    Block.header "Project Overview" ∉ (run envAssetsNone false).blocks :=
  ⟨claim2_amended.1 ⟨none, false⟩ rfl,
   claim2_amended.2.2.2 envAssetsNone false rfl rfl⟩

/-- C3 as stated is false: with a non-empty pricing payload whose price is 0
(not strictly positive) and a positive system size, the financial rows are
still computed and the "Price per Watt" row is "$0.00/W", not a
not-available value — the code's only guard is `system_size > 0`. -/
theorem claim3_counterexample :
    envPriceZero.design_pricing.val = some ⟨0, 1⟩ ∧
    Frac.pos ⟨0, 1⟩ = false ∧
    Block.table (financial_data ⟨0, 1⟩ (system_size_of ⟨none, some ⟨4000, 1⟩, none, none⟩))
      ∈ (run envPriceZero false).blocks ∧
    (financial_data ⟨0, 1⟩ (system_size_of ⟨none, some ⟨4000, 1⟩, none, none⟩))[2]? =
      some ["Price per Watt", "$0.00/W"] := by
  decide

/-- C3, amended: the financial rows are computed whenever the pricing
dictionary is non-empty, regardless of the sign of the price; within them,
the "Price per Watt" row performs the division `price / (systemSizeKw × 1000)`
only under the guard `system_size > 0` and reports "N/A" otherwise, so the
division by a non-positive system size never happens; and with an empty
pricing payload the financial section is absent altogether. -/
theorem claim3_amended :
    (∀ price system_size : Frac, system_size.pos = false →
        (financial_data price system_size)[2]? = some ["Price per Watt", "N/A"])
    ∧ (∀ price system_size : Frac, system_size.pos = true →
        (financial_data price system_size)[2]? =
          some ["Price per Watt",
            "$" ++ fmtComma 2 (price.div (system_size.mulNat 1000)) ++ "/W"])
    ∧ (∀ (env : ApiEnv) (pid : Bool), env.design_pricing.truthy = false →
        Block.header "Financial Overview" ∉ (run env pid).blocks) := by
  refine ⟨?_, ?_, ?_⟩
  · intro price system_size h
    simp [financial_data, h]
  · intro price system_size h
    simp [financial_data, h]
  · intro env pid h hmem
    rcases run_blocks_cases env pid _ hmem with h1 | h1 | h1 | h1 | h1
    · rcases mem_pre_blocks env pid _ h1 with h2 | h2 | h2 | h2 | h2 <;>
        first
        | simp_all
        | rcases mem_project_section _ _ h2 with h3 | h3 | ⟨rows2, _, h3⟩ <;> simp_all
    · obtain ⟨rows2, _, h2⟩ := h1; simp_all
    · simp_all
    · exact absurd (mem_financial_section env _ h1).1 (by simp [h])
    · rcases mem_images_section env _ h1 with h2 | h2 | h2 | h2 <;> simp_all

/-- Witness for the amended C3 at concrete inputs. -/
theorem claim3_amended_witness :
    (financial_data (Frac.ofInt 5) (Frac.ofInt 0))[2]? = some ["Price per Watt", "N/A"] ∧
    Block.header "Financial Overview" ∉ (run envAssetsNone false).blocks :=
  ⟨claim3_amended.1 (Frac.ofInt 5) (Frac.ofInt 0) rfl,
   claim3_amended.2.2 envAssetsNone false rfl⟩

/-- C4 as stated is false: a bill-of-materials entry missing the
`component_type` field makes the metrics mapping raise `KeyError` (the dict
comprehension of line 406 uses a bracket lookup), which aborts the whole run
— the mappers do not return a default for this missing field. -/
theorem claim4_counterexample :
    (∃ e, e ∈ (badSummary.val.getD {}).bill_of_materials.getD []
      ∧ e.component_type = none) ∧
    design_data_rows badSummary = Except.error "KeyError: component_type" ∧
    (run envBadBom false).ok = false := by
  refine ⟨⟨⟨none, none, none⟩, by decide, rfl⟩, rfl, by decide⟩

/-- When every entry carries `component_type`, the materials comprehension
succeeds. -/
theorem build_materials_ok (l : List BomEntry)
    (h : ∀ e ∈ l, e.component_type.isSome = true) :
    ∃ m, build_materials l = Except.ok m := by
  induction l with
  | nil => exact ⟨[], rfl⟩
  | cons e rest ih =>
    obtain ⟨k, hk⟩ := Option.isSome_iff_exists.mp (h e (by simp))
    obtain ⟨m, hm⟩ := ih (fun x hx => h x (by simp [hx]))
    exact ⟨(k, e) :: m, by simp [build_materials, hk, hm]⟩

/-- C4, amended: every `.get` lookup of the mappers has a default, and the
mapping never throws for missing fields, with the two exceptions the code
forces: a bill-of-materials entry lacking `"component_type"` (KeyError in
the dict comprehension) and a present-but-empty `"arrays"` list (IndexError
at `arrays[0]`).  Away from those, the metrics mapper always succeeds with
its 7 rows; on the fully-absent payload every row takes its default. -/
theorem claim4_amended :
    (∀ s : Dict DesignInfo,
        (∀ e ∈ (s.val.getD {}).bill_of_materials.getD [],
          e.component_type.isSome = true) →
        (s.val.getD {}).arrays ≠ some [] →
        (design_data_rows s).isOk = true ∧
        Except.map List.length (design_data_rows s) = Except.ok 7)
    ∧ design_data_rows ⟨some {}, false⟩ =
        Except.ok
          [["Metric", "Value"],
           ["System Size", "0.00 kW"],
           ["Annual Production", "0 kWh"],
           ["Number of Panels", "N/A"],
           ["Panel Model", "N/A"],
           ["Inverter Model", "N/A"],
           ["Solar Access", "N/A"]] := by
  constructor
  · intro s hbom harr
    obtain ⟨m, hm⟩ :=
      build_materials_ok ((s.val.getD {}).bill_of_materials.getD []) hbom
    have harrays : ∃ a0, ((s.val.getD {}).arrays.getD [{}]).head? = some a0 := by
      cases ha : (s.val.getD {}).arrays with
      | none => exact ⟨{}, rfl⟩
      | some l =>
        cases l with
        | nil => exact absurd ha harr
        | cons a rest => exact ⟨a, rfl⟩
    obtain ⟨a0, ha0⟩ := harrays
    constructor
    · simp only [design_data_rows]
      rw [hm]
      dsimp only
      rw [ha0]
      rfl
    · simp only [design_data_rows]
      rw [hm]
      dsimp only
      rw [ha0]
      rfl
  · rfl

/-- Witness for the amended C4 at the empty design object. -/
theorem claim4_amended_witness :
    (design_data_rows ⟨some {}, false⟩).isOk = true ∧
    Except.map List.length (design_data_rows ⟨some {}, false⟩) = Except.ok 7 :=
  claim4_amended.1 ⟨some {}, false⟩ (by decide) (by decide)

end Spartan

example : Spartan.fmtFixed 2 ⟨6000, 1000⟩ = "6.00" := by decide
example : Spartan.fmtComma 2 ⟨1000, 1⟩ = "1,000.00" := by decide
example : Spartan.fmtComma 2 (Spartan.Frac.div ⟨1000, 1⟩ ⟨4000, 1⟩) = "0.25" := by decide
example : Spartan.fmtComma 0 ⟨1234567, 1⟩ = "1,234,567" := by decide
